import Mathlib

set_option maxRecDepth 20000

/-! ## Definitions: the embedded simulator core -/

/-- 32-bit unsigned pattern of an integer: JavaScript `ToUint32`. -/
def u32 (v : Int) : Nat := (v % (2 ^ 32 : Int)).toNat

/-- Signed 32-bit value of a bit pattern (interpret a `Nat` as an
`Int32Array` slot content). -/
def s32 (n : Nat) : Int :=
  if n % 2 ^ 32 < 2 ^ 31 then ((n % 2 ^ 32 : Nat) : Int)
  else ((n % 2 ^ 32 : Nat) : Int) - 2 ^ 32

/-- JavaScript `ToInt32` on an exact integer. -/
def toInt32 (v : Int) : Int := s32 (u32 v)

/-- A JavaScript number that may be `NaN` (or arise from `undefined`
arithmetic): `none` is `NaN`. -/
abbrev JVal := Option Int

/-- `ToUint32` of a possibly-`NaN` number (`ToUint32 NaN = 0`). -/
def jPat (v : JVal) : Nat :=
  match v with
  | some x => u32 x
  | none => 0

/-- Store a possibly-`NaN` number into an `Int32Array` slot
(`ToInt32 NaN = 0`). -/
def jStore (v : JVal) : Int :=
  match v with
  | some x => toInt32 x
  | none => 0

/-- JavaScript `+` on two possibly-`NaN` numbers. -/
def jAdd (a b : JVal) : JVal :=
  match a, b with
  | some x, some y => some (x + y)
  | _, _ => none

/-- JavaScript `-` on two possibly-`NaN` numbers. -/
def jSub (a b : JVal) : JVal :=
  match a, b with
  | some x, some y => some (x - y)
  | _, _ => none

/-- JavaScript `===` on the results of two `getRegVal` reads, as used by
`beq`/`bne`.  A `getRegVal` read is a number or `undefined`, never `NaN`
(register slots are `Int32Array` elements and a bad index reads
`undefined`), so here `none` is `undefined` and
`undefined === undefined` is true, while `undefined === number` is
false. -/
def regEq (a b : JVal) : Bool :=
  match a, b with
  | some x, some y => x == y
  | none, none => true
  | _, _ => false

/-- JavaScript `<` on two possibly-`NaN` numbers (comparisons with `NaN`
are false). -/
def jLt (a b : JVal) : Bool :=
  match a, b with
  | some x, some y => decide (x < y)
  | _, _ => false

/-- A memory address key of the sparse memory object: `none` is the key
`"NaN"`. -/
abbrev JAddr := Option Int

/-- Address arithmetic `addr + k` (`NaN` propagates). -/
def jaddN (a : JAddr) (k : Int) : JAddr :=
  match a with
  | some x => some (x + k)
  | none => none

/-- Sparse byte memory: most recent binding first, like assignment order
on a JavaScript object. -/
abbrev Mem := List (JAddr × Nat)

/-- First-match lookup in the sparse memory (the most recent write). -/
def memLookup : Mem → JAddr → Option Nat
  | [], _ => none
  | (k, b) :: rest, a => if k = a then some b else memLookup rest a

/-- `getMemByte` from the source: `currentMem[addr] || 0`. -/
def getMemByte (addr : JAddr) (currentMem : Mem) : Nat :=
  (memLookup currentMem addr).getD 0

/-- Pattern of `b << k` for a byte read from memory (the source ors
shifted byte reads together). -/
def shlPat (n : Nat) (k : Nat) : Nat := n % 2 ^ 32 * 2 ^ k % 2 ^ 32

/-- `getMemWord` from the source: big-endian compose of four byte reads
through JavaScript `<<` and `|`, yielding a signed 32-bit number. -/
def getMemWord (addr : JAddr) (currentMem : Mem) : Int :=
  s32 (shlPat (getMemByte addr currentMem) 24 |||
       shlPat (getMemByte (jaddN addr 1) currentMem) 16 |||
       shlPat (getMemByte (jaddN addr 2) currentMem) 8 |||
       getMemByte (jaddN addr 3) currentMem % 2 ^ 32)

/-- `setMemByte` from the source: stores `val & 0xFF`. -/
def setMemByte (addr : JAddr) (val : JVal) (currentMem : Mem) : Mem :=
  (addr, jPat val % 256) :: currentMem

/-- `setMemWord` from the source: big-endian decompose into four byte
writes `(val >> k) & 0xFF` at `addr`, `addr+1`, `addr+2`, `addr+3`
(later writes are closer to the list head). -/
def setMemWord (addr : JAddr) (val : JVal) (currentMem : Mem) : Mem :=
  let w := jPat val
  (jaddN addr 3, w % 256) ::
  (jaddN addr 2, w / 2 ^ 8 % 256) ::
  (jaddN addr 1, w / 2 ^ 16 % 256) ::
  (addr, w / 2 ^ 24 % 256) :: currentMem

/-- The register file: an `Int32Array` of 32 slots. -/
abbrev Regs := Fin 32 → Int

/-- Register slot update (an indexed typed-array store). -/
def updReg (r : Regs) (i : Fin 32) (v : Int) : Regs :=
  fun j => if j = i then v else r j

/-- The 32 MIPS register names, in index order (`REGISTERS`). -/
def REGISTERS : List String :=
  ["$zero", "$at", "$v0", "$v1", "$a0", "$a1", "$a2", "$a3",
   "$t0", "$t1", "$t2", "$t3", "$t4", "$t5", "$t6", "$t7",
   "$s0", "$s1", "$s2", "$s3", "$s4", "$s5", "$s6", "$s7",
   "$t8", "$t9", "$k0", "$k1", "$gp", "$sp", "$fp", "$ra"]

/-- `REG_MAP[name]`: the register index for a name, or `undefined`. -/
def regMap (s : String) : Option Nat := REGISTERS.findIdx? (· == s)

/-- Result of the `parseReg` helper of `step`:
`num i` is a plain index (`0` for a falsy argument), `memArg off reg` is
the `{offset, reg}` object for an `offset(\x24reg)` token (`reg` may be
`undefined`), and `undefVal` is JavaScript `undefined` for an unrecognized
token. -/
inductive RegArg
  | num (i : Nat)
  | memArg (offset : Int) (reg : Option Nat)
  | undefVal
deriving DecidableEq, Repr

/-- Character class `[a-z0-9]` of the offset-operand regular expression. -/
def isRegNameChar (c : Char) : Bool :=
  ('a' ≤ c && c ≤ 'z') || ('0' ≤ c && c ≤ '9')

/-- Decimal digit test (regular-expression class `\d`, and the digits
accepted by `parseInt`). -/
def isDigitChar (c : Char) : Bool := '0' ≤ c && c ≤ '9'

/-- Value of a list of decimal digits. -/
def digitsToNat (l : List Char) : Nat :=
  l.foldl (fun acc c => acc * 10 + (c.toNat - '0'.toNat)) 0

/-- Try to match the regular expression `(-?\d+)\((\x24[a-z0-9]+)\)`
anchored at the start of the character list, returning the offset and
the register-name capture. -/
def parseMemAt (l : List Char) : Option (Int × String) :=
  let (neg, rest) :=
    match l with
    | '-' :: r => (true, r)
    | r => (false, r)
  let ds := rest.takeWhile isDigitChar
  if ds.isEmpty then none
  else
    match rest.dropWhile isDigitChar with
    | '(' :: '$' :: r2 =>
      let nm := r2.takeWhile isRegNameChar
      if nm.isEmpty then none
      else
        match r2.dropWhile isRegNameChar with
        | ')' :: _ =>
          let off : Int := (digitsToNat ds : Int)
          some (if neg then -off else off, String.mk ('$' :: nm))
        | _ => none
    | _ => none

/-- Leftmost match of the offset-operand regular expression in a string
(JavaScript `str.match` scans every start position). -/
def findMemMatch : List Char → Option (Int × String)
  | [] => none
  | c :: rest =>
    match parseMemAt (c :: rest) with
    | some r => some r
    | none => findMemMatch rest

/-- `parseReg` from `step`: a falsy argument gives index 0; a token
containing `(` is matched against the offset pattern; otherwise the
token is looked up in `REG_MAP`. -/
def parseReg (s : Option String) : RegArg :=
  match s with
  | none => .num 0
  | some str =>
    if str = "" then .num 0
    else if str.data.contains '(' then
      match findMemMatch str.data with
      | some (off, nm) => .memArg off (regMap nm)
      | none =>
        match regMap str with
        | some i => .num i
        | none => .undefVal
    else
      match regMap str with
      | some i => .num i
      | none => .undefVal

/-- `getRegVal` on an index that may be `undefined`: index 0 reads 0,
a valid index reads the slot, anything else reads `undefined` (`none`). -/
def getRegValJ (r : Regs) (i : Option Nat) : JVal :=
  match i with
  | none => none
  | some idx =>
    if idx = 0 then some 0
    else if h : idx < 32 then some (r ⟨idx, h⟩) else none

/-- `getRegVal (parseReg tok)`: reading a non-index (`{offset, reg}`
object or `undefined`) yields `undefined`. -/
def srcVal (r : Regs) (a : RegArg) : JVal :=
  match a with
  | .num i => getRegValJ r (some i)
  | .memArg _ _ => none
  | .undefVal => none

/-- `nextRegs[parseReg tok] = v`: a store through a non-numeric key is an
ordinary property assignment on the typed array and changes no register
slot; an out-of-range index write is ignored; an in-range store applies
`ToInt32`. -/
def setRegJ (r : Regs) (a : RegArg) (v : JVal) : Regs :=
  match a with
  | .num i => if h : i < 32 then updReg r ⟨i, h⟩ (jStore v) else r
  | .memArg _ _ => r
  | .undefVal => r

/-- JavaScript whitespace for `trim`/`parseInt` (the characters relevant
to this source). -/
def isWsChar (c : Char) : Bool :=
  c == ' ' || c == '\t' || c == '\n' || c == '\r' || c == '\x0b' || c == '\x0c'

/-- Hex digit test for `parseInt`'s `0x` mode. -/
def isHexDigitChar (c : Char) : Bool :=
  isDigitChar c || ('a' ≤ c && c ≤ 'f') || ('A' ≤ c && c ≤ 'F')

/-- Hex digit value. -/
def hexVal (c : Char) : Nat :=
  if isDigitChar c then c.toNat - '0'.toNat
  else if 'a' ≤ c && c ≤ 'f' then c.toNat - 'a'.toNat + 10
  else c.toNat - 'A'.toNat + 10

/-- Value of a list of hex digits. -/
def hexDigitsToNat (l : List Char) : Nat :=
  l.foldl (fun acc c => acc * 16 + hexVal c) 0

/-- JavaScript `parseInt(str)` with no radix argument: skip leading
whitespace, optional sign, a `0x`/`0X` prefix selects base 16, then the
maximal digit prefix; no digits means `NaN` (`none`). -/
def parseIntJS (s : String) : Option Int :=
  let l := s.data.dropWhile isWsChar
  let (sign, rest) :=
    match l with
    | '-' :: r => ((-1 : Int), r)
    | '+' :: r => ((1 : Int), r)
    | r => ((1 : Int), r)
  match rest with
  | '0' :: 'x' :: r =>
    let ds := r.takeWhile isHexDigitChar
    if ds.isEmpty then none else some (sign * (hexDigitsToNat ds : Int))
  | '0' :: 'X' :: r =>
    let ds := r.takeWhile isHexDigitChar
    if ds.isEmpty then none else some (sign * (hexDigitsToNat ds : Int))
  | r =>
    let ds := r.takeWhile isDigitChar
    if ds.isEmpty then none else some (sign * (digitsToNat ds : Int))

/-- `parseInt` applied to a possibly-missing operand token
(`parseInt(undefined)` is `NaN`). -/
def parseIntOpt (s : Option String) : Option Int :=
  match s with
  | some str => parseIntJS str
  | none => none

/-- Label-table lookup (`labelMap.hasOwnProperty(str)` plus read). -/
def labelLookup : List (String × Int) → String → Option Int
  | [], _ => none
  | (k, v) :: rest, s => if k = s then some v else labelLookup rest s

/-- `getImmOrLabel` from `step`: a known label resolves to its address,
otherwise the token goes through `parseInt` (possibly yielding `NaN`). -/
def getImmOrLabel (labels : List (String × Int)) (s : Option String) : JVal :=
  match s with
  | none => none
  | some str =>
    match labelLookup labels str with
    | some a => some a
    | none => parseIntJS str

/-- An assembled instruction (`newInstructions` entries). -/
structure Instr where
  pc : Int
  op : String
  args : List String
  sourceLine : Nat
deriving DecidableEq, Repr

/-- The simulator state held by `useMipsSimulator`: machine state plus
the installed program. `pc = none` models a `NaN` program counter and
`error = some msg` a stored error message. -/
structure Mach where
  regs : Regs
  pc : Option Int
  mem : Mem
  output : List Char
  isRunning : Bool
  error : Option String
  instructions : List Instr
  labelMap : List (String × Int)
  sourceMap : List (Int × Nat)

def MEMORY_SIZE : Nat := 1024 * 4

def DATA_START : Int := 0x10010000

def STACK_START : Int := 0x7FFFFFFC

def TEXT_START : Int := 0x00400000

/-- Fresh register file: zeros except `$sp` (index 29). -/
def initRegs : Regs := fun i => if i.val = 29 then STACK_START else 0

/-- The operation selected by the `switch (op)` dispatch. -/
inductive Op
  | add | addu | sub | subu | addi | addiu | mul
  | opAnd | opOr | opXor | sll | srl | slt | slti
  | lui | li | la | move | lw | sw | lb | sb
  | beq | bne | j | jal | jr | syscall | unknown
deriving DecidableEq, Repr

/-- The string dispatch of the `switch` statement. -/
def decodeOp (s : String) : Op :=
  match s with
  | "add" => .add
  | "addu" => .addu
  | "sub" => .sub
  | "subu" => .subu
  | "addi" => .addi
  | "addiu" => .addiu
  | "mul" => .mul
  | "and" => .opAnd
  | "or" => .opOr
  | "xor" => .opXor
  | "sll" => .sll
  | "srl" => .srl
  | "slt" => .slt
  | "slti" => .slti
  | "lui" => .lui
  | "li" => .li
  | "la" => .la
  | "move" => .move
  | "lw" => .lw
  | "sw" => .sw
  | "lb" => .lb
  | "sb" => .sb
  | "beq" => .beq
  | "bne" => .bne
  | "j" => .j
  | "jal" => .jal
  | "jr" => .jr
  | "syscall" => .syscall
  | _ => .unknown

/-- The locally accumulated effects of one instruction, before the
commit at the end of `step` (`nextRegs`, `nextMem`, `nextPc`,
`outputAppend`, plus whether the exit syscall ran). -/
structure ExecOut where
  regs : Regs
  mem : Mem
  pc : Option Int
  halt : Bool
  app : List Char

/-- `String.fromCharCode`: `ToUint16` then the character with that code
(an invalid scalar value maps to the null character). -/
def jsFromCharCode (n : Nat) : Char := Char.ofNat (n % 2 ^ 16)

/-- The `print_string` scan of the `syscall` case: read bytes from
`addr`, stop at a zero byte or when the loop guard reaches its bound. -/
def printString (m : Mem) : Int → Nat → List Char
  | _, 0 => []
  | addr, fuel + 1 =>
    let c := getMemByte (some addr) m
    if c = 0 then [] else jsFromCharCode c :: printString m (addr + 1) fuel

/-- Message of the TypeError thrown by destructuring
`const { offset, reg } = parseReg(...)` when `parseReg` returned
`undefined`. -/
def destructureMsg : String :=
  "Cannot destructure property of undefined"

/-- The decode/execute body of `step` (the `switch` inside the `try`):
computes the locally accumulated next state, or the message of a thrown
exception.  `p` is the current (matched) program counter. -/
def execInst (s : Mach) (inst : Instr) (p : Int) : Except String ExecOut :=
  let args := inst.args
  let a0 := args.get? 0
  let a1 := args.get? 1
  let a2 := args.get? 2
  let rd := parseReg a0
  let v1 := srcVal s.regs (parseReg a1)
  let v2 := srcVal s.regs (parseReg a2)
  let base : ExecOut :=
    { regs := s.regs, mem := s.mem, pc := some (p + 4), halt := false, app := [] }
  match decodeOp inst.op with
  | .add | .addu =>
    .ok { base with regs := setRegJ s.regs rd (jAdd v1 v2) }
  | .sub | .subu =>
    .ok { base with regs := setRegJ s.regs rd (jSub v1 v2) }
  | .addi | .addiu =>
    .ok { base with regs := setRegJ s.regs rd (jAdd v1 (parseIntOpt a2)) }
  | .mul =>
    .ok { base with regs := setRegJ s.regs rd (some (s32 (jPat v1 * jPat v2 % 2 ^ 32))) }
  | .opAnd =>
    .ok { base with regs := setRegJ s.regs rd (some (s32 (jPat v1 &&& jPat v2))) }
  | .opOr =>
    .ok { base with regs := setRegJ s.regs rd (some (s32 (jPat v1 ||| jPat v2))) }
  | .opXor =>
    .ok { base with regs := setRegJ s.regs rd (some (s32 (jPat v1 ^^^ jPat v2))) }
  | .sll =>
    .ok { base with regs := setRegJ s.regs rd (some (s32 (jPat v1 * 2 ^ (jPat (parseIntOpt a2) % 32) % 2 ^ 32))) }
  | .srl =>
    .ok { base with regs := setRegJ s.regs rd (some ((jPat v1 / 2 ^ (jPat (parseIntOpt a2) % 32) : Nat) : Int)) }
  | .slt =>
    .ok { base with regs := setRegJ s.regs rd (some (if jLt v1 v2 then 1 else 0)) }
  | .slti =>
    .ok { base with regs := setRegJ s.regs rd (some (if jLt v1 (parseIntOpt a2) then 1 else 0)) }
  | .lui =>
    .ok { base with regs := setRegJ s.regs rd (some (s32 (jPat (parseIntOpt a1) * 2 ^ 16 % 2 ^ 32))) }
  | .li =>
    .ok { base with regs := setRegJ s.regs rd (parseIntOpt a1) }
  | .la =>
    .ok { base with regs := setRegJ s.regs rd (getImmOrLabel s.labelMap a1) }
  | .move =>
    .ok { base with regs := setRegJ s.regs rd v1 }
  | .lw =>
    match parseReg a1 with
    | .undefVal => .error destructureMsg
    | .memArg off r =>
      let addr := jAdd (getRegValJ s.regs r) (some off)
      .ok { base with regs := setRegJ s.regs rd (some (getMemWord addr s.mem)) }
    | .num _ =>
      .ok { base with regs := setRegJ s.regs rd (some (getMemWord none s.mem)) }
  | .sw =>
    match parseReg a1 with
    | .undefVal => .error destructureMsg
    | .memArg off r =>
      let addr := jAdd (getRegValJ s.regs r) (some off)
      .ok { base with mem := setMemWord addr (srcVal s.regs rd) s.mem }
    | .num _ =>
      .ok { base with mem := setMemWord none (srcVal s.regs rd) s.mem }
  | .lb =>
    match parseReg a1 with
    | .undefVal => .error destructureMsg
    | .memArg off r =>
      let addr := jAdd (getRegValJ s.regs r) (some off)
      let b := getMemByte addr s.mem
      let v : Int := if b % 2 ^ 32 &&& 0x80 != 0 then s32 (b % 2 ^ 32 ||| 0xFFFFFF00) else (b : Int)
      .ok { base with regs := setRegJ s.regs rd (some v) }
    | .num _ =>
      let b := getMemByte none s.mem
      let v : Int := if b % 2 ^ 32 &&& 0x80 != 0 then s32 (b % 2 ^ 32 ||| 0xFFFFFF00) else (b : Int)
      .ok { base with regs := setRegJ s.regs rd (some v) }
  | .sb =>
    match parseReg a1 with
    | .undefVal => .error destructureMsg
    | .memArg off r =>
      let addr := jAdd (getRegValJ s.regs r) (some off)
      .ok { base with mem := setMemByte addr (srcVal s.regs rd) s.mem }
    | .num _ =>
      .ok { base with mem := setMemByte none (srcVal s.regs rd) s.mem }
  | .beq =>
    if regEq (srcVal s.regs rd) v1 then
      .ok { base with pc := getImmOrLabel s.labelMap a2 }
    else .ok base
  | .bne =>
    if regEq (srcVal s.regs rd) v1 then .ok base
    else .ok { base with pc := getImmOrLabel s.labelMap a2 }
  | .j =>
    .ok { base with pc := getImmOrLabel s.labelMap a0 }
  | .jal =>
    .ok { base with regs := setRegJ s.regs (.num 31) (some (p + 4)), pc := getImmOrLabel s.labelMap a0 }
  | .jr =>
    .ok { base with pc := srcVal s.regs rd }
  | .syscall =>
    let v0 := s.regs 2
    if v0 = 1 then
      .ok { base with app := (toString (s.regs 4)).data }
    else if v0 = 4 then
      .ok { base with app := printString s.mem (s.regs 4) 1000 }
    else if v0 = 10 then
      .ok { base with halt := true, pc := some 0 }
    else if v0 = 11 then
      .ok { base with app := [jsFromCharCode (u32 (s.regs 4))] }
    else .ok base
  | .unknown => .ok base

/-- Lowercase hex digits of a natural number (`toString(16)`). -/
def natHex (n : Nat) : List Char := Nat.toDigits 16 n

/-- `pc.toString(16)` for the runtime-error message. -/
def jsHexString (i : Int) : String :=
  if i < 0 then String.mk ('-' :: natHex i.natAbs) else String.mk (natHex i.toNat)

/-- The `step` function of `useMipsSimulator`: return early on a stored
error, halt gracefully when no instruction matches the PC, otherwise run
the instruction and either commit all of its accumulated effects or
store a runtime error leaving machine state untouched. -/
def step (s : Mach) : Mach :=
  if s.error.isSome then s
  else
    match s.pc with
    | none => { s with isRunning := false }
    | some p =>
      match s.instructions.find? (fun i => i.pc == p) with
      | none => { s with isRunning := false }
      | some inst =>
        match execInst s inst p with
        | .ok o =>
          { s with regs := o.regs, mem := o.mem, pc := o.pc,
                   output := s.output ++ o.app,
                   isRunning := s.isRunning && !o.halt }
        | .error msg =>
          { s with error := some ("Runtime Error at PC 0x" ++ jsHexString p
                     ++ ": " ++ msg),
                   isRunning := false }

/-- Iterated `step`. -/
def stepN : Nat → Mach → Mach
  | 0, s => s
  | n + 1, s => stepN n (step s)

/-- Drop leading JavaScript whitespace. -/
def trimL (l : List Char) : List Char := l.dropWhile isWsChar

/-- JavaScript `String.trim`. -/
def jsTrim (l : List Char) : List Char :=
  ((l.dropWhile isWsChar).reverse.dropWhile isWsChar).reverse

/-- JavaScript `String.split(sep)` for a single separator character. -/
def splitOnChar (sep : Char) : List Char → List (List Char)
  | [] => [[]]
  | c :: rest =>
    let r := splitOnChar sep rest
    if c = sep then [] :: r
    else
      match r with
      | [] => [[c]]
      | h :: t => (c :: h) :: t

/-- `Array.join(sep)` for a single separator character. -/
def joinWithChar (sep : Char) : List (List Char) → List Char
  | [] => []
  | [l] => l
  | l :: rest => l ++ sep :: joinWithChar sep rest

/-- Whitespace tokenization, accumulator form (`match(/\S+/g)`; the
alternative `"[^"]*"` branch of the `.data` tokenizer never wins because
`\S+` already matches at every non-space position, so both tokenizers
split on whitespace). -/
def wsSplitAux : List Char → List Char → List (List Char)
  | [], cur => if cur.isEmpty then [] else [cur.reverse]
  | c :: rest, cur =>
    if isWsChar c then
      if cur.isEmpty then wsSplitAux rest [] else cur.reverse :: wsSplitAux rest []
    else wsSplitAux rest (c :: cur)

/-- Whitespace tokenization of a line. -/
def wsSplit (l : List Char) : List (List Char) := wsSplitAux l []

/-- `String.indexOf(c)` (−1 when absent). -/
def jsIndexOf (c : Char) (l : List Char) : Int :=
  match l.findIdx? (· == c) with
  | some n => (n : Int)
  | none => -1

/-- `String.lastIndexOf(c)` (−1 when absent). -/
def jsLastIndexOf (c : Char) (l : List Char) : Int :=
  match l.reverse.findIdx? (· == c) with
  | some n => (l.length : Int) - 1 - (n : Int)
  | none => -1

/-- JavaScript `String.substring(a, b)`: clamp both indices to the
string, swap them when out of order. -/
def jsSubstring (l : List Char) (a b : Int) : List Char :=
  let n : Int := (l.length : Int)
  let a' := (max 0 (min a n)).toNat
  let b' := (max 0 (min b n)).toNat
  if a' ≤ b' then (l.take b').drop a' else (l.take a').drop b'

/-- One pass of `String.replace(/\\x/g, c)`: rewrite every
backslash-`tag` pair to `c`, left to right. -/
def replaceEscape (tag : Char) (c : Char) : List Char → List Char
  | [] => []
  | [x] => [x]
  | '\\' :: x :: rest =>
    if x = tag then c :: replaceEscape tag c rest
    else '\\' :: replaceEscape tag c (x :: rest)
  | x :: rest => x :: replaceEscape tag c rest

/-- The `.asciiz`/`.ascii` escape processing:
`str.replace(/\\n/g, '\n').replace(/\\t/g, '\t')`. -/
def processEscapes (l : List Char) : List Char :=
  replaceEscape 't' '\t' (replaceEscape 'n' '\n' l)

/-- The quoted payload of a data directive line:
`line.substring(line.indexOf('"') + 1, line.lastIndexOf('"'))`. -/
def quotedPayload (l : List Char) : List Char :=
  jsSubstring l (jsIndexOf '"' l + 1) (jsLastIndexOf '"' l)

/-- Sequential byte writes into the data segment under construction. -/
def writeBytes (m : Mem) (ptr : Int) : List Nat → Mem
  | [] => m
  | b :: bs => writeBytes ((some ptr, b) :: m) (ptr + 1) bs

/-- `newLabelMap[label] = ptr` (object key assignment overwrites). -/
def insertLabel (m : List (String × Int)) (k : String) (v : Int) :
    List (String × Int) :=
  m.filter (fun p => p.1 != k) ++ [(k, v)]

/-- The assembler's accumulated state during its single line scan. -/
structure AsmAcc where
  instrs : List Instr
  labels : List (String × Int)
  dataSeg : Mem
  srcMap : List (Int × Nat)
  inData : Bool
  dataPtr : Int
  textPtr : Int

/-- Initial assembler state: empty tables, `.text` section, segment base
pointers. -/
def initAcc : AsmAcc :=
  { instrs := [], labels := [], dataSeg := [], srcMap := [],
    inData := false, dataPtr := DATA_START, textPtr := TEXT_START }

/-- Process one already label-stripped `.data` line. -/
def asmDataLine (acc : AsmAcc) (line : List Char) : AsmAcc :=
  let directive := String.mk ((wsSplit line).headD [])
  if directive = ".asciiz" || directive = ".ascii" then
    let str := processEscapes (quotedPayload line)
    let bytes := str.map Char.toNat
    let bytes := if directive = ".asciiz" then bytes ++ [0] else bytes
    { acc with dataSeg := writeBytes acc.dataSeg acc.dataPtr bytes,
               dataPtr := acc.dataPtr + (bytes.length : Int) }
  else if directive = ".word" then
    let w := jPat (parseIntOpt (((wsSplit line).get? 1).map String.mk))
    { acc with dataSeg := writeBytes acc.dataSeg acc.dataPtr
                 [w / 2 ^ 24 % 256, w / 2 ^ 16 % 256, w / 2 ^ 8 % 256, w % 256],
               dataPtr := acc.dataPtr + 4 }
  else acc

/-- Process one already label-stripped `.text` line: commas become
spaces, whitespace tokens become mnemonic and operands. -/
def asmTextLine (acc : AsmAcc) (lineNo : Nat) (line : List Char) : AsmAcc :=
  let cleanLine := line.map (fun c => if c = ',' then ' ' else c)
  match wsSplit cleanLine with
  | [] => acc
  | opTok :: rest =>
    { acc with
        instrs := acc.instrs ++
          [{ pc := acc.textPtr, op := String.mk opTok,
             args := rest.map String.mk, sourceLine := lineNo }],
        srcMap := acc.srcMap ++ [(acc.textPtr, lineNo)],
        textPtr := acc.textPtr + 4 }

/-- Process one raw source line of `assemble` (index `i`, so the 1-based
line number is `i + 1`): trim, strip the comment, handle section
directives, bind a label, then dispatch on the current section. -/
def asmLine (acc : AsmAcc) (lineNo : Nat) (raw : List Char) : AsmAcc :=
  let line := jsTrim ((jsTrim raw).takeWhile (· ≠ '#'))
  if line.isEmpty then acc
  else if line = ".data".data then { acc with inData := true }
  else if line = ".text".data then { acc with inData := false }
  else
    let withLabel :=
      if line.contains ':' then
        match splitOnChar ':' line with
        | [] => (acc, line)
        | p :: ps =>
          let label := String.mk (jsTrim p)
          let rest := jsTrim (joinWithChar ':' ps)
          let ptr := if acc.inData then acc.dataPtr else acc.textPtr
          ({ acc with labels := insertLabel acc.labels label ptr }, rest)
      else (acc, line)
    let acc₂ := withLabel.1
    let line₂ := withLabel.2
    if line₂.isEmpty then acc₂
    else if acc₂.inData then asmDataLine acc₂ line₂
    else asmTextLine acc₂ lineNo line₂

/-- The assembler's line scan. -/
def asmLoop : AsmAcc → Nat → List (List Char) → AsmAcc
  | acc, _, [] => acc
  | acc, i, l :: ls => asmLoop (asmLine acc (i + 1) l) (i + 1) ls

/-- The parse phase of `assemble`: split the source into lines and scan
them. -/
def assembleProgram (sourceCode : String) : AsmAcc :=
  asmLoop initAcc 0 (splitOnChar '\n' sourceCode.data)

/-- `assemble` from `useMipsSimulator`: reset registers, PC, output, run
flag and error, then parse and install the new program and its data
segment.  No operation of the parse loop can throw, so the
`Assembler Error` catch branch is unreachable and `assemble` always
installs the freshly parsed program, independent of the previous state. -/
def assemble (sourceCode : String) (_prev : Mach) : Mach :=
  let a := assembleProgram sourceCode
  { regs := initRegs, pc := some TEXT_START, mem := a.dataSeg,
    output := [], isRunning := false, error := none,
    instructions := a.instrs, labelMap := a.labels, sourceMap := a.srcMap }

/-- A machine with nothing loaded (the `useState` initial values). -/
def blankMach : Mach :=
  { regs := initRegs, pc := some TEXT_START, mem := [], output := [],
    isRunning := false, error := none, instructions := [], labelMap := [],
    sourceMap := [] }

/-- The built-in example program (`DEFAULT_CODE`). -/
def DEFAULT_CODE : String :=
  "# MIPS Fibonacci Generator\n# Calculates the first N Fibonacci numbers\n\n.data\nmsg_start: .asciiz \"Fibonacci Sequence: \"\nspace:     .asciiz \", \"\nnewline:   .asciiz \"\\n\"\n\n.text\nmain:\n    # Initialize variables\n    addi $t0, $zero, 10    # N = 10 (count)\n    addi $t1, $zero, 0     # a = 0\n    addi $t2, $zero, 1     # b = 1\n    \n    # Print start message\n    li $v0, 4\n    la $a0, msg_start\n    syscall\n    \n    # Print first number (0)\n    li $v0, 1\n    add $a0, $zero, $t1\n    syscall\n    \n    # Print space\n    li $v0, 4\n    la $a0, space\n    syscall\n\nloop:\n    # Check if N <= 0\n    beq $t0, $zero, exit\n    \n    # Calculate next: c = a + b\n    add $t3, $t1, $t2\n    \n    # Move: a = b, b = c\n    add $t1, $zero, $t2\n    add $t2, $zero, $t3\n    \n    # Print current number (b)\n    li $v0, 1\n    add $a0, $zero, $t1\n    syscall\n    \n    # Decrement counter\n    addi $t0, $t0, -1\n    \n    # Print separator if not last\n    beq $t0, $zero, skip_comma\n    li $v0, 4\n    la $a0, space\n    syscall\n    \nskip_comma:\n    j loop\n\nexit:\n    # Print newline\n    li $v0, 4\n    la $a0, newline\n    syscall\n\n    # Exit program\n    li $v0, 10\n    syscall\n"

/-- Program writing 5 into `$zero` and then reading `$zero` as a source. -/
def c1Mach : Mach :=
  { blankMach with instructions :=
      [{ pc := TEXT_START, op := "addi", args := ["$zero", "$zero", "5"], sourceLine := 1 },
       { pc := TEXT_START + 4, op := "add", args := ["$t0", "$zero", "$zero"], sourceLine := 2 }] }

/-- Program taking a `beq` whose target is neither a label nor numeric. -/
def c3Mach : Mach :=
  { blankMach with instructions :=
      [{ pc := TEXT_START, op := "beq", args := ["$t0", "$t0", "nowhere"], sourceLine := 1 }] }

/-- Program whose `lw` has an address operand that decodes to neither a
register nor an `offset(reg)` form. -/
def c4Mach : Mach :=
  { blankMach with instructions :=
      [{ pc := TEXT_START, op := "lw", args := ["$t0", "foo"], sourceLine := 1 }] }

/-- Program jumping to the literal address 5. -/
def c9Mach : Mach :=
  { blankMach with instructions :=
      [{ pc := TEXT_START, op := "j", args := ["5"], sourceLine := 1 }] }

/-- Program whose `lw` destination token is not a register name and whose
address operand also fails to decode. -/
def c10Mach : Mach :=
  { blankMach with instructions :=
      [{ pc := TEXT_START, op := "lw", args := ["$bogus", "foo"], sourceLine := 1 }] }

/-- Machine with `$t1 = x`, `$t2 = y` and the single three-operand
instruction `op $t0, $t1, arg3`. -/
def c6Mach (op arg3 : String) (x y : Int) : Mach :=
  { blankMach with
      regs := fun i => if i.val = 9 then x else if i.val = 10 then y else 0,
      instructions :=
        [{ pc := TEXT_START, op := op, args := ["$t0", "$t1", arg3],
           sourceLine := 1 }] }

/-- Machine used as a witness for the `print_string` theorem: a syscall-4
request with the bytes of `"Hi"` and a terminator at the data base. -/
def c7Mach : Mach :=
  { blankMach with
      regs := fun i => if i.val = 2 then 4 else if i.val = 4 then DATA_START else 0,
      mem := [(some DATA_START, 72), (some (DATA_START + 1), 105),
              (some (DATA_START + 2), 0)],
      instructions :=
        [{ pc := TEXT_START, op := "syscall", args := [], sourceLine := 1 }] }

/-- The mnemonics that override the default `PC + 4` update. -/
def isControlOp : Op → Bool
  | .beq | .bne | .j | .jal | .jr => true
  | _ => false

/-- Machine with a single non-control `addi` instruction at the text
base. -/
def c9wMach : Mach :=
  { blankMach with instructions :=
      [{ pc := TEXT_START, op := "addi", args := ["$t0", "$t0", "5"],
         sourceLine := 1 }] }

/-- The mnemonics whose first operand is a register destination. -/
def hasRegDest : Op → Bool
  | .add | .addu | .sub | .subu | .addi | .addiu | .mul
  | .opAnd | .opOr | .opXor | .sll | .srl | .slt | .slti
  | .lui | .li | .la | .move | .lw | .lb => true
  | _ => false

/-- Machine whose `addi` destination token is not a register name. -/
def c10wMach : Mach :=
  { blankMach with instructions :=
      [{ pc := TEXT_START, op := "addi", args := ["$bogus", "$t1", "1"],
         sourceLine := 1 }] }

/-! ## Lemmas and claim theorems -/

lemma u32_lt (v : Int) : u32 v < 2 ^ 32 := by
  unfold u32
  omega

lemma s32_u32_of_int32 (v : Int) (h1 : -2 ^ 31 ≤ v) (h2 : v < 2 ^ 31) :
    s32 (u32 v) = v := by
  unfold s32 u32
  omega

lemma lor_split {k b : Nat} (a : Nat) (hb : b < 2 ^ k) :
    2 ^ k * a ||| b = 2 ^ k * a + b :=
  (Nat.mul_add_lt_is_or hb a).symm

/-- Big-endian byte recomposition: oring the four shifted byte fields of
a 32-bit pattern gives back the pattern. -/
lemma byte_recompose (u : Nat) (hu : u < 2 ^ 32) :
    u / 2 ^ 24 % 256 * 2 ^ 24 ||| u / 2 ^ 16 % 256 * 2 ^ 16 |||
      u / 2 ^ 8 % 256 * 2 ^ 8 ||| u % 256 = u := by
  have h0 : u / 2 ^ 24 % 256 * 2 ^ 24 = 2 ^ 24 * (u / 2 ^ 24 % 256) := by ring
  have h1 : u / 2 ^ 16 % 256 * 2 ^ 16 = 2 ^ 16 * (u / 2 ^ 16 % 256) := by ring
  have h2 : u / 2 ^ 8 % 256 * 2 ^ 8 = 2 ^ 8 * (u / 2 ^ 8 % 256) := by ring
  rw [h0, h1, h2]
  rw [lor_split _ (by omega : 2 ^ 16 * (u / 2 ^ 16 % 256) < 2 ^ 24)]
  have e1 : 2 ^ 24 * (u / 2 ^ 24 % 256) + 2 ^ 16 * (u / 2 ^ 16 % 256)
      = 2 ^ 16 * (2 ^ 8 * (u / 2 ^ 24 % 256) + u / 2 ^ 16 % 256) := by ring
  rw [e1, lor_split _ (by omega : 2 ^ 8 * (u / 2 ^ 8 % 256) < 2 ^ 16)]
  have e2 : 2 ^ 16 * (2 ^ 8 * (u / 2 ^ 24 % 256) + u / 2 ^ 16 % 256)
        + 2 ^ 8 * (u / 2 ^ 8 % 256)
      = 2 ^ 8 * (2 ^ 16 * (u / 2 ^ 24 % 256) + 2 ^ 8 * (u / 2 ^ 16 % 256)
        + u / 2 ^ 8 % 256) := by ring
  rw [e2, lor_split _ (by omega : u % 256 < 2 ^ 8)]
  omega

/-- C2 theorem. For an integer address and an `Int32Array`-ranged value,
`setMemWord` then `getMemWord` round-trips, the four stored bytes are the
big-endian decomposition of the value's 32-bit pattern, and a key that
was never written reads as byte 0. -/
theorem setMemWord_getMemWord_roundtrip (m : Mem) (a v : Int)
    (h1 : -2 ^ 31 ≤ v) (h2 : v < 2 ^ 31) :
    getMemWord (some a) (setMemWord (some a) (some v) m) = v ∧
    getMemByte (some a) (setMemWord (some a) (some v) m) = u32 v / 2 ^ 24 % 256 ∧
    getMemByte (some (a + 1)) (setMemWord (some a) (some v) m) = u32 v / 2 ^ 16 % 256 ∧
    getMemByte (some (a + 2)) (setMemWord (some a) (some v) m) = u32 v / 2 ^ 8 % 256 ∧
    getMemByte (some (a + 3)) (setMemWord (some a) (some v) m) = u32 v % 256 ∧
    (∀ (m₀ : Mem) (x : JAddr), memLookup m₀ x = none → getMemByte x m₀ = 0) := by
  have hb0 : getMemByte (some a) (setMemWord (some a) (some v) m)
      = u32 v / 2 ^ 24 % 256 := by
    simp [setMemWord, getMemByte, memLookup, jaddN, jPat]
  have hb1 : getMemByte (some (a + 1)) (setMemWord (some a) (some v) m)
      = u32 v / 2 ^ 16 % 256 := by
    simp [setMemWord, getMemByte, memLookup, jaddN, jPat]
  have hb2 : getMemByte (some (a + 2)) (setMemWord (some a) (some v) m)
      = u32 v / 2 ^ 8 % 256 := by
    simp [setMemWord, getMemByte, memLookup, jaddN, jPat]
  have hb3 : getMemByte (some (a + 3)) (setMemWord (some a) (some v) m)
      = u32 v % 256 := by
    simp [setMemWord, getMemByte, memLookup, jaddN, jPat]
  refine ⟨?_, hb0, hb1, hb2, hb3, ?_⟩
  · unfold getMemWord
    rw [hb0]
    rw [show jaddN (some a) 1 = some (a + 1) from rfl, hb1]
    rw [show jaddN (some a) 2 = some (a + 2) from rfl, hb2]
    rw [show jaddN (some a) 3 = some (a + 3) from rfl, hb3]
    have hu := u32_lt v
    have hs0 : shlPat (u32 v / 2 ^ 24 % 256) 24 = u32 v / 2 ^ 24 % 256 * 2 ^ 24 := by
      unfold shlPat
      omega
    have hs1 : shlPat (u32 v / 2 ^ 16 % 256) 16 = u32 v / 2 ^ 16 % 256 * 2 ^ 16 := by
      unfold shlPat
      omega
    have hs2 : shlPat (u32 v / 2 ^ 8 % 256) 8 = u32 v / 2 ^ 8 % 256 * 2 ^ 8 := by
      unfold shlPat
      omega
    rw [hs0, hs1, hs2, Nat.mod_eq_of_lt (by omega : u32 v % 256 < 2 ^ 32),
      byte_recompose (u32 v) hu]
    exact s32_u32_of_int32 v h1 h2
  · intro m₀ x hx
    simp [getMemByte, hx]

/-- C2 witness: the round-trip theorem applied at a concrete address and
value. -/
theorem setMemWord_getMemWord_roundtrip_witness :
    getMemWord (some 0x10010000)
        (setMemWord (some 0x10010000) (some 0x12345678) []) = 0x12345678 ∧
    getMemByte (some 0x10010000)
        (setMemWord (some 0x10010000) (some 0x12345678) []) = 0x12 := by
  have h := setMemWord_getMemWord_roundtrip [] 0x10010000 0x12345678
    (by norm_num) (by norm_num)
  refine ⟨h.1, ?_⟩
  rw [h.2.1]
  rfl

/-- C1 counterexample: after executing `addi $zero, $zero, 5`, register
slot 0 stores 5 — the write path does not special-case index 0, so the
register file observably reads nonzero at `$zero`. -/
theorem zero_register_write_committed_counterexample :
    (step c1Mach).regs 0 = 5 ∧ (step c1Mach).regs 0 ≠ 0 := by
  decide

/-- C1 amended: operand reads of `$zero` always yield 0 (`getRegVal`
special-cases index 0), but writes naming `$zero` as destination are
committed into slot 0 of the register file: after
`addi $zero, $zero, 5` slot 0 stores 5, while a following
`add $t0, $zero, $zero` still computes 0 because its source reads go
through `getRegVal`. -/
theorem zero_register_reads_zero_but_writes_commit :
    (∀ r : Regs, getRegValJ r (some 0) = some 0) ∧
    (stepN 2 c1Mach).regs 0 = 5 ∧
    (stepN 2 c1Mach).regs 8 = 0 := by
  refine ⟨fun r => rfl, ?_, ?_⟩ <;> decide

/-- C3 counterexample: executing `beq $t0, $t0, nowhere`, whose target is
neither a label nor a parseable integer, raises no runtime fault at all:
the stored error stays `none` and the program counter becomes `NaN`. -/
theorem unresolved_branch_target_no_fault_counterexample :
    (step c3Mach).error = none ∧ (step c3Mach).pc = none := by
  decide

/-- C9 counterexample: `j 5` sets the program counter to 5, which is not
a multiple of 4 — control-transfer targets are used as resolved, with no
alignment check. -/
theorem pc_alignment_counterexample :
    (step c9Mach).pc = some 5 ∧ ¬ (4 : Int) ∣ 5 := by
  decide

/-- C10 counterexample: `lw $bogus, foo` has a destination token that is
not a recognized register name, yet `step` raises a runtime fault
(thrown while destructuring the address operand), so unrecognized
destinations do not always complete fault-free. -/
theorem unknown_dest_register_counterexample :
    parseReg (some "$bogus") = RegArg.undefVal ∧
    ((step c10Mach).error).isSome = true := by
  decide

/-- C5 theorem: assembling and running the built-in Fibonacci program
terminates at the exit syscall (PC set to 0) with no fault, and the
accumulated output is exactly the reference string: the comma-and-space
separated decimal Fibonacci sequence followed by one newline. -/
theorem default_fibonacci_program_output :
    (stepN 200 (assemble DEFAULT_CODE blankMach)).output
        = "Fibonacci Sequence: 0, 1, 1, 2, 3, 5, 8, 13, 21, 34, 55\n".data ∧
    (stepN 200 (assemble DEFAULT_CODE blankMach)).pc = some 0 ∧
    (stepN 200 (assemble DEFAULT_CODE blankMach)).error = none := by
  refine ⟨?_, ?_, ?_⟩ <;> decide

/-- When fetch succeeds and the executed instruction completes, `step`
commits exactly the accumulated effects. -/
lemma step_eq_of_ok (s : Mach) (p : Int) (inst : Instr) (o : ExecOut)
    (herr : s.error = none) (hpc : s.pc = some p)
    (hfind : s.instructions.find? (fun i => i.pc == p) = some inst)
    (hex : execInst s inst p = .ok o) :
    step s = { s with regs := o.regs, mem := o.mem, pc := o.pc,
                      output := s.output ++ o.app,
                      isRunning := s.isRunning && !o.halt } := by
  unfold step
  rw [herr, hpc]
  simp only [Option.isSome_none, Bool.false_eq_true, if_false]
  simp only [hfind, hex]

/-- When fetch succeeds and the executed instruction throws, `step` only
records the runtime error and clears the run flag. -/
lemma step_eq_of_error (s : Mach) (p : Int) (inst : Instr) (msg : String)
    (herr : s.error = none) (hpc : s.pc = some p)
    (hfind : s.instructions.find? (fun i => i.pc == p) = some inst)
    (hex : execInst s inst p = .error msg) :
    step s = { s with error := some ("Runtime Error at PC 0x" ++ jsHexString p
                        ++ ": " ++ msg),
                      isRunning := false } := by
  unfold step
  rw [herr, hpc]
  simp only [Option.isSome_none, Bool.false_eq_true, if_false]
  simp only [hfind, hex]

/-- A `NaN` program counter matches no instruction: `step` only clears
the run flag. -/
lemma step_of_nan_pc (s : Mach) (herr : s.error = none) (hpc : s.pc = none) :
    step s = { s with isRunning := false } := by
  unfold step
  rw [herr, hpc]
  simp only [Option.isSome_none, Bool.false_eq_true, if_false]

/-- `ToInt32` preserves the value modulo `2^32`. -/
lemma toInt32_modEq (v : Int) : toInt32 v ≡ v [ZMOD (2 ^ 32)] := by
  unfold toInt32 s32 u32 Int.ModEq
  split <;> omega

/-- C4 theorem: one `step` on a fetched instruction is atomic — on a
fault nothing of the machine state changes except the recorded error,
and on success all accumulated register/memory/PC/output effects are
committed together. -/
theorem step_atomic_commit_or_rollback (s : Mach) (p : Int) (inst : Instr)
    (herr : s.error = none) (hpc : s.pc = some p)
    (hfind : s.instructions.find? (fun i => i.pc == p) = some inst) :
    (∀ msg, execInst s inst p = .error msg →
      (step s).regs = s.regs ∧ (step s).mem = s.mem ∧ (step s).pc = s.pc ∧
      (step s).output = s.output ∧ (step s).error ≠ none) ∧
    (∀ o, execInst s inst p = .ok o →
      step s = { s with regs := o.regs, mem := o.mem, pc := o.pc,
                        output := s.output ++ o.app,
                        isRunning := s.isRunning && !o.halt }) := by
  constructor
  · intro msg hex
    rw [step_eq_of_error s p inst msg herr hpc hfind hex]
    simp
  · intro o hex
    exact step_eq_of_ok s p inst o herr hpc hfind hex

/-- C4 witness: `lw $t0, foo` throws while decoding its address operand;
applying the atomicity theorem at this concrete machine shows the prior
state stays authoritative. -/
theorem step_atomic_commit_or_rollback_witness :
    (step c4Mach).regs = c4Mach.regs ∧ (step c4Mach).mem = c4Mach.mem ∧
    (step c4Mach).pc = c4Mach.pc ∧ (step c4Mach).output = c4Mach.output ∧
    (step c4Mach).error ≠ none :=
  (step_atomic_commit_or_rollback c4Mach TEXT_START
      { pc := TEXT_START, op := "lw", args := ["$t0", "foo"], sourceLine := 1 }
      rfl rfl rfl).1 destructureMsg rfl

/-- C8 theorem: `assemble` is atomic — its parse loop cannot throw, so it
always succeeds (the assembler-error branch is unreachable), and in one
transition it installs the freshly parsed program (instructions, label
table, data image, source map) and resets the machine state, independent
of whatever was loaded before. -/
theorem assemble_atomic_install_reset (src : String) (prev : Mach) :
    (assemble src prev).error = none ∧
    (assemble src prev).regs = initRegs ∧
    (assemble src prev).pc = some TEXT_START ∧
    (assemble src prev).output = [] ∧
    (assemble src prev).isRunning = false ∧
    (assemble src prev).instructions = (assembleProgram src).instrs ∧
    (assemble src prev).labelMap = (assembleProgram src).labels ∧
    (assemble src prev).mem = (assembleProgram src).dataSeg ∧
    (assemble src prev).sourceMap = (assembleProgram src).srcMap ∧
    (∀ q : Mach, assemble src q = assemble src prev) :=
  ⟨rfl, rfl, rfl, rfl, rfl, rfl, rfl, rfl, rfl, fun _ => rfl⟩

/-- C6 theorem: `add`/`sub`/`addi` results are stored through `ToInt32`,
i.e. they wrap modulo `2^32` with no fault; in particular
`addi` on `0x7FFFFFFF` with immediate 1 stores `0x80000000`
(`-2^31` as a signed 32-bit value). -/
theorem arith_wraps_mod_2_32 (x y : Int)
    (hx1 : -2 ^ 31 ≤ x) (hx2 : x < 2 ^ 31) :
    ((step (c6Mach "add" "$t2" x y)).regs 8 ≡ x + y [ZMOD (2 ^ 32)] ∧
      (step (c6Mach "add" "$t2" x y)).error = none) ∧
    ((step (c6Mach "sub" "$t2" x y)).regs 8 ≡ x - y [ZMOD (2 ^ 32)]) ∧
    ((step (c6Mach "addi" "1" x y)).regs 8 ≡ x + 1 [ZMOD (2 ^ 32)] ∧
      (step (c6Mach "addi" "1" x y)).error = none) ∧
    (x = 2 ^ 31 - 1 →
      (step (c6Mach "addi" "1" x y)).regs 8 = -2 ^ 31 ∧
      u32 ((step (c6Mach "addi" "1" x y)).regs 8) = 0x80000000) := by
  have hadd : (step (c6Mach "add" "$t2" x y)).regs 8 = toInt32 (x + y) := rfl
  have hsub : (step (c6Mach "sub" "$t2" x y)).regs 8 = toInt32 (x - y) := rfl
  have haddi : (step (c6Mach "addi" "1" x y)).regs 8 = toInt32 (x + 1) := rfl
  refine ⟨⟨?_, rfl⟩, ?_, ⟨?_, rfl⟩, ?_⟩
  · rw [hadd]
    exact toInt32_modEq (x + y)
  · rw [hsub]
    exact toInt32_modEq (x - y)
  · rw [haddi]
    exact toInt32_modEq (x + 1)
  · intro hxe
    subst hxe
    rw [haddi]
    constructor
    · decide
    · decide

/-- C6 witness: the wraparound theorem applied at `x = 0x7FFFFFFF`,
`y = 1`. -/
theorem arith_wraps_mod_2_32_witness :
    (step (c6Mach "addi" "1" (2 ^ 31 - 1) 1)).regs 8 = -2 ^ 31 ∧
    u32 ((step (c6Mach "addi" "1" (2 ^ 31 - 1) 1)).regs 8) = 0x80000000 :=
  (arith_wraps_mod_2_32 (2 ^ 31 - 1) 1 (by norm_num) (by norm_num)).2.2.2 rfl

/-- C3 amended theorem: a branch or jump (`beq`, `bne`, `j`, `jal`)
whose target operand is neither a label nor a parseable integer never
raises a fault: `parseInt` yields `NaN` instead of throwing, so no
error is recorded.  The PC becomes `NaN` exactly when the transfer is
taken — always for `j`/`jal`, for `beq` exactly when the two register
reads compare `===` equal, for `bne` exactly when they do not — and a
not-taken branch simply advances the PC by 4.  With a `NaN` PC the
following `step` finds no instruction and halts gracefully, changing
nothing but the run flag. -/
theorem unresolved_branch_jump_no_fault_nan_pc
    (s : Mach) (p : Int) (inst : Instr) (tgt : String)
    (herr : s.error = none) (hpc : s.pc = some p)
    (hfind : s.instructions.find? (fun i => i.pc == p) = some inst)
    (hbr : ((decodeOp inst.op = Op.j ∨ decodeOp inst.op = Op.jal) ∧
              inst.args.get? 0 = some tgt) ∨
           ((decodeOp inst.op = Op.beq ∨ decodeOp inst.op = Op.bne) ∧
              inst.args.get? 2 = some tgt))
    (hlbl : labelLookup s.labelMap tgt = none)
    (hpi : parseIntJS tgt = none) :
    (step s).error = none ∧
    ((step s).pc = none ∨ (step s).pc = some (p + 4)) ∧
    ((step s).pc = none → step (step s) = { step s with isRunning := false }) ∧
    ((decodeOp inst.op = Op.j ∨ decodeOp inst.op = Op.jal) →
      (step s).pc = none) ∧
    (decodeOp inst.op = Op.beq →
      ((step s).pc = none ↔
        regEq (srcVal s.regs (parseReg (inst.args.get? 0)))
          (srcVal s.regs (parseReg (inst.args.get? 1))) = true)) ∧
    (decodeOp inst.op = Op.bne →
      ((step s).pc = none ↔
        regEq (srcVal s.regs (parseReg (inst.args.get? 0)))
          (srcVal s.regs (parseReg (inst.args.get? 1))) = false)) := by
  rcases hbr with ⟨hjj, htok⟩ | ⟨hbb, htok⟩
  · -- j / jal: the target always resolves, to NaN
    have himm : getImmOrLabel s.labelMap (inst.args.get? 0) = none := by
      rw [htok]
      simp [getImmOrLabel, hlbl, hpi]
    have key : (step s).error = none ∧ (step s).pc = none := by
      rcases hjj with hj | hjal
      · have hex : execInst s inst p = .ok
            { regs := s.regs, mem := s.mem, pc := none, halt := false,
              app := [] } := by
          simp only [execInst, hj, himm]
        rw [step_eq_of_ok s p inst _ herr hpc hfind hex]
        exact ⟨herr, rfl⟩
      · have hex : execInst s inst p = .ok
            { regs := setRegJ s.regs (.num 31) (some (p + 4)), mem := s.mem,
              pc := none, halt := false, app := [] } := by
          simp only [execInst, hjal, himm]
        rw [step_eq_of_ok s p inst _ herr hpc hfind hex]
        exact ⟨herr, rfl⟩
    refine ⟨key.1, Or.inl key.2, fun _ => step_of_nan_pc _ key.1 key.2,
      fun _ => key.2, ?_, ?_⟩
    · intro hbeq
      rcases hjj with hj | hjal
      · rw [hj] at hbeq
        exact Op.noConfusion hbeq
      · rw [hjal] at hbeq
        exact Op.noConfusion hbeq
    · intro hbne
      rcases hjj with hj | hjal
      · rw [hj] at hbne
        exact Op.noConfusion hbne
      · rw [hjal] at hbne
        exact Op.noConfusion hbne
  · -- beq / bne: the target resolves to NaN exactly when the branch is taken
    have himm : getImmOrLabel s.labelMap (inst.args.get? 2) = none := by
      rw [htok]
      simp [getImmOrLabel, hlbl, hpi]
    have hnotj : ¬ (decodeOp inst.op = Op.j ∨ decodeOp inst.op = Op.jal) := by
      rcases hbb with hbeq | hbne <;> rintro (h | h)
      · rw [hbeq] at h
        exact Op.noConfusion h
      · rw [hbeq] at h
        exact Op.noConfusion h
      · rw [hbne] at h
        exact Op.noConfusion h
      · rw [hbne] at h
        exact Op.noConfusion h
    rcases hbb with hbeq | hbne
    · have hnotbne : decodeOp inst.op ≠ Op.bne := by
        rw [hbeq]
        exact fun h => Op.noConfusion h
      cases hcmp : regEq (srcVal s.regs (parseReg (inst.args.get? 0)))
          (srcVal s.regs (parseReg (inst.args.get? 1))) with
      | true =>
        have hex : execInst s inst p = .ok
            { regs := s.regs, mem := s.mem, pc := none, halt := false,
              app := [] } := by
          simp only [execInst, hbeq]
          rw [hcmp, if_pos rfl, himm]
        rw [step_eq_of_ok s p inst _ herr hpc hfind hex]
        exact ⟨herr, Or.inl rfl, fun _ => step_of_nan_pc _ herr rfl,
          fun h => absurd h hnotj,
          fun _ => iff_of_true rfl rfl,
          fun h => absurd h hnotbne⟩
      | false =>
        have hex : execInst s inst p = .ok
            { regs := s.regs, mem := s.mem, pc := some (p + 4), halt := false,
              app := [] } := by
          simp only [execInst, hbeq]
          rw [hcmp, if_neg (by simp)]
        rw [step_eq_of_ok s p inst _ herr hpc hfind hex]
        exact ⟨herr, Or.inr rfl, fun h => absurd h (by simp),
          fun h => absurd h hnotj,
          fun _ => iff_of_false (by simp) (by simp [hcmp]),
          fun h => absurd h hnotbne⟩
    · have hnotbeq : decodeOp inst.op ≠ Op.beq := by
        rw [hbne]
        exact fun h => Op.noConfusion h
      cases hcmp : regEq (srcVal s.regs (parseReg (inst.args.get? 0)))
          (srcVal s.regs (parseReg (inst.args.get? 1))) with
      | true =>
        have hex : execInst s inst p = .ok
            { regs := s.regs, mem := s.mem, pc := some (p + 4), halt := false,
              app := [] } := by
          simp only [execInst, hbne]
          rw [hcmp, if_pos rfl]
        rw [step_eq_of_ok s p inst _ herr hpc hfind hex]
        exact ⟨herr, Or.inr rfl, fun h => absurd h (by simp),
          fun h => absurd h hnotj,
          fun h => absurd h hnotbeq,
          fun _ => iff_of_false (by simp) (by simp [hcmp])⟩
      | false =>
        have hex : execInst s inst p = .ok
            { regs := s.regs, mem := s.mem, pc := none, halt := false,
              app := [] } := by
          simp only [execInst, hbne]
          rw [hcmp, if_neg (by simp), himm]
        rw [step_eq_of_ok s p inst _ herr hpc hfind hex]
        exact ⟨herr, Or.inl rfl, fun _ => step_of_nan_pc _ herr rfl,
          fun h => absurd h hnotj,
          fun h => absurd h hnotbeq,
          fun _ => iff_of_true rfl rfl⟩

/-- C3 witness: the amended theorem applied to `beq $t0, $t0, nowhere`
with an empty label table (both reads are 0, so the branch is taken and
the PC becomes `NaN`). -/
theorem unresolved_branch_jump_no_fault_nan_pc_witness :
    (step c3Mach).error = none ∧
    ((step c3Mach).pc = none ∨ (step c3Mach).pc = some (TEXT_START + 4)) ∧
    ((step c3Mach).pc = none →
      step (step c3Mach) = { step c3Mach with isRunning := false }) ∧
    ((decodeOp "beq" = Op.j ∨ decodeOp "beq" = Op.jal) →
      (step c3Mach).pc = none) ∧
    (decodeOp "beq" = Op.beq →
      ((step c3Mach).pc = none ↔
        regEq (srcVal c3Mach.regs (parseReg (some "$t0")))
          (srcVal c3Mach.regs (parseReg (some "$t0"))) = true)) ∧
    (decodeOp "beq" = Op.bne →
      ((step c3Mach).pc = none ↔
        regEq (srcVal c3Mach.regs (parseReg (some "$t0")))
          (srcVal c3Mach.regs (parseReg (some "$t0"))) = false)) :=
  unresolved_branch_jump_no_fault_nan_pc c3Mach TEXT_START
    { pc := TEXT_START, op := "beq", args := ["$t0", "$t0", "nowhere"],
      sourceLine := 1 }
    "nowhere" rfl rfl rfl (Or.inr ⟨Or.inl rfl, rfl⟩) rfl rfl

lemma printString_length (m : Mem) :
    ∀ (fuel : Nat) (a : Int), (printString m a fuel).length ≤ fuel := by
  intro fuel
  induction fuel with
  | zero => intro a; simp [printString]
  | succ f ih =>
    intro a
    simp only [printString]
    split
    · simp
    · simpa using ih (a + 1)

lemma printString_get (m : Mem) :
    ∀ (fuel : Nat) (a : Int) (i : Nat), i < (printString m a fuel).length →
      getMemByte (some (a + i)) m ≠ 0 ∧
      (printString m a fuel).get? i
        = some (jsFromCharCode (getMemByte (some (a + i)) m)) := by
  intro fuel
  induction fuel with
  | zero => intro a i h; simp [printString] at h
  | succ f ih =>
    intro a i h
    by_cases hc : getMemByte (some a) m = 0
    · simp [printString, hc] at h
    · cases i with
      | zero =>
        refine ⟨by simpa using hc, ?_⟩
        simp [printString, hc]
      | succ j =>
        have h' : j < (printString m (a + 1) f).length := by
          simp only [printString, if_neg hc, List.length_cons] at h
          omega
        have hcast : a + ((j + 1 : Nat) : Int) = (a + 1) + (j : Int) := by
          push_cast
          ring
        have hj := ih (a + 1) j h'
        refine ⟨by rw [hcast]; exact hj.1, ?_⟩
        rw [hcast]
        simpa [printString, if_neg hc] using hj.2

lemma printString_stop (m : Mem) :
    ∀ (fuel : Nat) (a : Int), (printString m a fuel).length < fuel →
      getMemByte (some (a + ((printString m a fuel).length : Int))) m = 0 := by
  intro fuel
  induction fuel with
  | zero => intro a h; simp at h
  | succ f ih =>
    intro a h
    by_cases hc : getMemByte (some a) m = 0
    · simp [printString, hc]
    · have hlen : (printString m a (f + 1)).length
          = (printString m (a + 1) f).length + 1 := by
        simp [printString, hc]
      have h' : (printString m (a + 1) f).length < f := by omega
      have := ih (a + 1) h'
      rw [hlen]
      have hcast : a + (((printString m (a + 1) f).length + 1 : Nat) : Int)
          = (a + 1) + ((printString m (a + 1) f).length : Int) := by
        push_cast
        ring
      rw [hcast]
      exact this

/-- C7 theorem: the `print_string` syscall appends at most 1000
characters: it scans bytes from the address in `$a0`, each appended
character is the character of the (nonzero) byte at the corresponding
address, it stops early only at a zero byte, and it never faults. -/
theorem print_string_capped_scan (s : Mach) (p : Int) (inst : Instr)
    (herr : s.error = none) (hpc : s.pc = some p)
    (hfind : s.instructions.find? (fun i => i.pc == p) = some inst)
    (hop : inst.op = "syscall") (hv0 : s.regs 2 = 4) :
    (step s).error = none ∧
    ∃ L, (step s).output = s.output ++ L ∧
      L.length ≤ 1000 ∧
      (∀ i : Nat, i < L.length →
        getMemByte (some (s.regs 4 + i)) s.mem ≠ 0 ∧
        L.get? i = some (jsFromCharCode (getMemByte (some (s.regs 4 + i)) s.mem))) ∧
      (L.length < 1000 →
        getMemByte (some (s.regs 4 + (L.length : Int))) s.mem = 0) := by
  have hdec : decodeOp inst.op = Op.syscall := by rw [hop]; rfl
  have hex : execInst s inst p = .ok
      { regs := s.regs, mem := s.mem, pc := some (p + 4), halt := false,
        app := printString s.mem (s.regs 4) 1000 } := by
    simp only [execInst, hdec, hv0]
    norm_num
  rw [step_eq_of_ok s p inst _ herr hpc hfind hex]
  refine ⟨herr, printString s.mem (s.regs 4) 1000, rfl,
    printString_length s.mem 1000 (s.regs 4), ?_, ?_⟩
  · intro i hi
    exact printString_get s.mem 1000 (s.regs 4) i hi
  · intro hlt
    exact printString_stop s.mem 1000 (s.regs 4) hlt

/-- C7 witness: the capped-scan theorem applied at a machine printing the
two-byte string `"Hi"`. -/
theorem print_string_capped_scan_witness :
    (step c7Mach).error = none ∧
    ∃ L, (step c7Mach).output = c7Mach.output ++ L ∧
      L.length ≤ 1000 ∧
      (∀ i : Nat, i < L.length →
        getMemByte (some (c7Mach.regs 4 + i)) c7Mach.mem ≠ 0 ∧
        L.get? i = some (jsFromCharCode (getMemByte (some (c7Mach.regs 4 + i)) c7Mach.mem))) ∧
      (L.length < 1000 →
        getMemByte (some (c7Mach.regs 4 + (L.length : Int))) c7Mach.mem = 0) :=
  print_string_capped_scan c7Mach TEXT_START
    { pc := TEXT_START, op := "syscall", args := [], sourceLine := 1 }
    rfl rfl rfl rfl rfl

lemma execInst_pc_nonctl (s : Mach) (inst : Instr) (p : Int) (o : ExecOut)
    (hctl : isControlOp (decodeOp inst.op) = false)
    (hex : execInst s inst p = .ok o) :
    o.pc = some (p + 4) ∨ o.pc = some 0 := by
  simp only [execInst] at hex
  cases hop : decodeOp inst.op <;>
    first
    | (rw [hop] at hctl; exact absurd hctl (by decide))
    | (simp only [hop] at hex;
       first
       | (obtain rfl := Except.ok.inj hex; simp)
       | ((repeat' (split at hex)) <;>
           first
           | (obtain rfl := Except.ok.inj hex; simp)
           | simp at hex))

/-- C9 amended theorem: for every non-control-transfer instruction the
program counter stays a multiple of 4 after `step` (the default update
adds 4, the exit syscall sets it to 0, and a fault leaves it unchanged);
control-transfer targets carry no alignment guarantee. -/
theorem pc_alignment_noncontrol_preserved (s : Mach) (p : Int) (inst : Instr)
    (herr : s.error = none) (hpc : s.pc = some p)
    (hfind : s.instructions.find? (fun i => i.pc == p) = some inst)
    (hdiv : (4 : Int) ∣ p)
    (hctl : isControlOp (decodeOp inst.op) = false) :
    ∃ q, (step s).pc = some q ∧ (4 : Int) ∣ q := by
  cases hex : execInst s inst p with
  | error msg =>
    rw [step_eq_of_error s p inst msg herr hpc hfind hex]
    exact ⟨p, hpc, hdiv⟩
  | ok o =>
    rw [step_eq_of_ok s p inst o herr hpc hfind hex]
    rcases execInst_pc_nonctl s inst p o hctl hex with h | h
    · exact ⟨p + 4, h, dvd_add hdiv ⟨1, by ring⟩⟩
    · exact ⟨0, h, dvd_zero 4⟩

/-- C9 witness: the alignment theorem applied at a machine whose fetched
instruction is not a control transfer. -/
theorem pc_alignment_noncontrol_preserved_witness :
    ∃ q, (step c9wMach).pc = some q ∧ (4 : Int) ∣ q :=
  pc_alignment_noncontrol_preserved c9wMach TEXT_START
    { pc := TEXT_START, op := "addi", args := ["$t0", "$t0", "5"], sourceLine := 1 }
    rfl rfl rfl ⟨1048576, by norm_num [TEXT_START]⟩ rfl

lemma setRegJ_nonnum (r : Regs) (v : JVal) (a : RegArg)
    (h : ∀ i, a ≠ RegArg.num i) : setRegJ r a v = r := by
  cases a with
  | num i => exact absurd rfl (h i)
  | memArg off reg => rfl
  | undefVal => rfl

lemma execInst_ok_regs_unchanged (s : Mach) (inst : Instr) (p : Int)
    (hdest : hasRegDest (decodeOp inst.op) = true)
    (hnum : ∀ i, parseReg (inst.args.get? 0) ≠ RegArg.num i)
    (hmem : (decodeOp inst.op = Op.lw ∨ decodeOp inst.op = Op.lb) →
      parseReg (inst.args.get? 1) ≠ RegArg.undefVal) :
    ∃ o, execInst s inst p = .ok o ∧ o.regs = s.regs := by
  have hset : ∀ v, setRegJ s.regs (parseReg (inst.args.get? 0)) v = s.regs :=
    fun v => setRegJ_nonnum s.regs v _ hnum
  simp only [execInst]
  cases hop : decodeOp inst.op <;>
    first
    | (rw [hop] at hdest; exact absurd hdest (by decide))
    | exact ⟨_, rfl, hset _⟩
    | (cases hpr : parseReg (inst.args.get? 1) with
       | num i => exact ⟨_, rfl, hset _⟩
       | memArg off reg => exact ⟨_, rfl, hset _⟩
       | undefVal =>
          exact absurd hpr (hmem (by rw [hop]; first | exact Or.inl rfl | exact Or.inr rfl)))

/-- C10 amended theorem: for every instruction with a register
destination operand, if the destination token decodes to no register
index and (for `lw`/`lb`) the address operand itself decodes, `step`
raises no fault and all 32 registers keep their prior values — the write
is silently discarded. -/
theorem unknown_dest_register_write_discarded (s : Mach) (p : Int) (inst : Instr)
    (herr : s.error = none) (hpc : s.pc = some p)
    (hfind : s.instructions.find? (fun i => i.pc == p) = some inst)
    (hdest : hasRegDest (decodeOp inst.op) = true)
    (hnum : ∀ i, parseReg (inst.args.get? 0) ≠ RegArg.num i)
    (hmem : (decodeOp inst.op = Op.lw ∨ decodeOp inst.op = Op.lb) →
      parseReg (inst.args.get? 1) ≠ RegArg.undefVal) :
    (step s).regs = s.regs ∧ (step s).error = none := by
  obtain ⟨o, hex, hregs⟩ := execInst_ok_regs_unchanged s inst p hdest hnum hmem
  rw [step_eq_of_ok s p inst o herr hpc hfind hex]
  exact ⟨hregs, herr⟩

/-- C10 witness: the discarded-write theorem applied to
`addi $bogus, $t1, 1`. -/
theorem unknown_dest_register_write_discarded_witness :
    (step c10wMach).regs = c10wMach.regs ∧ (step c10wMach).error = none :=
  unknown_dest_register_write_discarded c10wMach TEXT_START
    { pc := TEXT_START, op := "addi", args := ["$bogus", "$t1", "1"],
      sourceLine := 1 }
    rfl rfl rfl rfl
    (fun i h => RegArg.noConfusion (show RegArg.undefVal = RegArg.num i from h))
    (fun hor => absurd hor (by decide))
